import Mathlib

/-!
Verification of the cache-aside layer of the repository (`src/utils/cache.py`).

The embedding models the Python module shallowly:

* Python values that flow through the cache are the inductive `PyValue`
  (text, integers, booleans, `None`, lists, string-keyed dicts, naive
  `datetime`/`date` values, and BSON `ObjectId` values).
* The `json` module's value domain is the inductive `Json`.  The textual
  rendering/parsing done by `json.dumps`/`json.loads` is the Python standard
  library (an external collaborator); we model the value it transports, i.e.
  `json.dumps(v, default=serialize_datetime)` becomes `json_dumps : PyValue →
  Except String Json` (the `Except.error` case is the raised `TypeError`) and
  `json.loads(text, object_hook=deserialize_datetime)` becomes
  `loads_with_hook : Json → PyValue`, which applies the hook exactly where
  CPython does: to every decoded JSON object (dict) — never to strings.
* Redis is modelled as an association list of entries `key ↦ (serialized
  value, expiry parameter as passed to SET ex=...)`; the connection handle is
  an `Option Unit` (present/absent), and log calls are recorded as a list of
  levels.
* Asynchronous functions become pure state-passing functions; the module is
  single-process and the claims under study concern sequential call
  sequences.
-/

namespace CacheLayer

/-- JSON values as transported by the Python `json` module.  Numbers are
modelled as integers (the repository caches JSON-native data; floating point
is out of scope of the embedding). -/
inductive Json where
  | str (s : String)
  | num (n : Int)
  | bool (b : Bool)
  | null
  | arr (xs : List Json)
  | obj (kvs : List (String × Json))

/-- A naive `datetime.datetime` value (no timezone, as produced by the
repository's data path). -/
structure PyDateTime where
  year : Nat
  month : Nat
  day : Nat
  hour : Nat
  minute : Nat
  second : Nat
  microsecond : Nat
deriving DecidableEq

/-- A `datetime.date` value. -/
structure PyDate where
  year : Nat
  month : Nat
  day : Nat
deriving DecidableEq

/-- Python values that reach the serialization codec and the key builder. -/
inductive PyValue where
  | vstr (s : String)
  | vint (n : Int)
  | vbool (b : Bool)
  | vnone
  | vlist (xs : List PyValue)
  | vdict (kvs : List (String × PyValue))
  | vdatetime (dt : PyDateTime)
  | vdate (d : PyDate)
  | vobjectid (hexid : String)

/-- Left-pad a decimal rendering with zeros to the given width (models the
fixed-width fields of `datetime.isoformat`). -/
def padLeft (w : Nat) (s : String) : String :=
  String.mk (List.replicate (w - s.length) '0') ++ s

/-- Models `datetime.datetime.isoformat(sep)`: `YYYY-MM-DD{sep}HH:MM:SS`
with a `.ffffff` suffix exactly when the microsecond field is nonzero. -/
def PyDateTime.isoformat (sep : String) (dt : PyDateTime) : String :=
  padLeft 4 (toString dt.year) ++ "-" ++ padLeft 2 (toString dt.month) ++ "-"
    ++ padLeft 2 (toString dt.day) ++ sep ++ padLeft 2 (toString dt.hour)
    ++ ":" ++ padLeft 2 (toString dt.minute) ++ ":" ++ padLeft 2 (toString dt.second)
    ++ (if dt.microsecond == 0 then "" else "." ++ padLeft 6 (toString dt.microsecond))

/-- Models `datetime.date.isoformat()`: `YYYY-MM-DD`. -/
def PyDate.isoformat (d : PyDate) : String :=
  padLeft 4 (toString d.year) ++ "-" ++ padLeft 2 (toString d.month) ++ "-"
    ++ padLeft 2 (toString d.day)

/-- The Python class name of a value, as used in the `TypeError` message of
`serialize_datetime`. -/
def pyTypeName : PyValue → String
  | PyValue.vstr _ => "str"
  | PyValue.vint _ => "int"
  | PyValue.vbool _ => "bool"
  | PyValue.vnone => "NoneType"
  | PyValue.vlist _ => "list"
  | PyValue.vdict _ => "dict"
  | PyValue.vdatetime _ => "datetime"
  | PyValue.vdate _ => "date"
  | PyValue.vobjectid _ => "ObjectId"

/-- Embeds `serialize_datetime` (cache.py lines 118-123): `datetime` and
`date` values are rendered to ISO-8601 text, every other type raises
`TypeError` (the `Except.error` case).  This is the `default=` hook that
`set_cache` hands to `json.dumps`; note that the module's `CustomJSONEncoder`
(which would map `ObjectId` to `str(obj)`) is defined but never used on the
`set_cache` path, so `ObjectId` falls through to the `TypeError` branch
here. -/
def serialize_datetime (obj : PyValue) : Except String String :=
  match obj with
  | PyValue.vdatetime dt => Except.ok (dt.isoformat "T")
  | PyValue.vdate d => Except.ok d.isoformat
  | _ => Except.error ("Type " ++ pyTypeName obj ++ " not serializable")

mutual
/-- Embeds `json.dumps(value, default=serialize_datetime)` at the value level
(cache.py line 150): JSON-native values are converted structurally; any other
value is passed to the `default` hook `serialize_datetime`, whose string
result is emitted (or whose `TypeError` aborts the dump). -/
def json_dumps : PyValue → Except String Json
  | PyValue.vstr s => Except.ok (Json.str s)
  | PyValue.vint n => Except.ok (Json.num n)
  | PyValue.vbool b => Except.ok (Json.bool b)
  | PyValue.vnone => Except.ok Json.null
  | PyValue.vlist xs => Except.map Json.arr (dumpsList xs)
  | PyValue.vdict kvs => Except.map Json.obj (dumpsObj kvs)
  | v => Except.map Json.str (serialize_datetime v)

/-- Elementwise `json_dumps` over a Python list. -/
def dumpsList : List PyValue → Except String (List Json)
  | [] => Except.ok []
  | x :: xs => do
    let j ← json_dumps x
    let js ← dumpsList xs
    Except.ok (j :: js)

/-- Entrywise `json_dumps` over a Python dict (string keys). -/
def dumpsObj : List (String × PyValue) → Except String (List (String × Json))
  | [] => Except.ok []
  | (k, v) :: kvs => do
    let j ← json_dumps v
    let js ← dumpsObj kvs
    Except.ok ((k, j) :: js)
end

/-- Digit run at the front of a character list (used by the
`fromisoformat` model). -/
def digitsVal (cs : List Char) : Nat :=
  cs.foldl (fun a c => a * 10 + (c.toNat - Char.toNat '0')) 0

/-- Modelled from the Python standard library (external to the repository):
`datetime.datetime.fromisoformat` on the formats produced by `isoformat` —
`YYYY-MM-DD`, optionally followed by a one-character separator and
`HH:MM:SS`, optionally followed by `.ffffff`.  Out-of-range fields or any
other shape fail (the `ValueError` branch of the source's
`deserialize_datetime`). -/
def datetime_fromisoformat (s : String) : Option PyDateTime :=
  match s.data with
  | y1 :: y2 :: y3 :: y4 :: '-' :: m1 :: m2 :: '-' :: d1 :: d2 :: rest =>
    if ([y1, y2, y3, y4, m1, m2, d1, d2].all Char.isDigit) then
      let y := digitsVal [y1, y2, y3, y4]
      let mo := digitsVal [m1, m2]
      let d := digitsVal [d1, d2]
      if 1 ≤ mo ∧ mo ≤ 12 ∧ 1 ≤ d ∧ d ≤ 31 then
        match rest with
        | [] => some ⟨y, mo, d, 0, 0, 0, 0⟩
        | _ :: h1 :: h2 :: ':' :: mi1 :: mi2 :: ':' :: s1 :: s2 :: rest2 =>
          if ([h1, h2, mi1, mi2, s1, s2].all Char.isDigit) then
            let h := digitsVal [h1, h2]
            let mi := digitsVal [mi1, mi2]
            let sec := digitsVal [s1, s2]
            if h ≤ 23 ∧ mi ≤ 59 ∧ sec ≤ 59 then
              match rest2 with
              | [] => some ⟨y, mo, d, h, mi, sec, 0⟩
              | '.' :: frac =>
                if frac.length == 6 ∧ frac.all Char.isDigit then
                  some ⟨y, mo, d, h, mi, sec, digitsVal frac⟩
                else none
              | _ => none
            else none
          else none
        | _ => none
      else none
    else none
  | _ => none

/-- Embeds `deserialize_datetime` (cache.py lines 133-139): a string is
parsed with `datetime.fromisoformat`, returning the parsed datetime on
success and the string unchanged on `ValueError`; every non-string value is
returned unchanged.  `get_cache` installs this as the `object_hook` of
`json.loads` — and CPython applies `object_hook` only to decoded JSON
objects (dicts), never to strings, so on the actual decode path this
function always takes its final branch. -/
def deserialize_datetime (obj : PyValue) : PyValue :=
  match obj with
  | PyValue.vstr s =>
    match datetime_fromisoformat s with
    | some dt => PyValue.vdatetime dt
    | none => PyValue.vstr s
  | _ => obj

mutual
/-- Embeds `json.loads(text, object_hook=deserialize_datetime)` at the value
level (cache.py line 167): the parsed JSON value is converted to Python
values structurally, with the `object_hook` applied to each decoded object
(dict) — exactly as CPython does, and to nothing else. -/
def loads_with_hook : Json → PyValue
  | Json.str s => PyValue.vstr s
  | Json.num n => PyValue.vint n
  | Json.bool b => PyValue.vbool b
  | Json.null => PyValue.vnone
  | Json.arr xs => PyValue.vlist (loadsList xs)
  | Json.obj kvs => deserialize_datetime (PyValue.vdict (loadsObj kvs))

/-- Elementwise `loads_with_hook` over a JSON array. -/
def loadsList : List Json → List PyValue
  | [] => []
  | x :: xs => loads_with_hook x :: loadsList xs

/-- Entrywise `loads_with_hook` over a JSON object. -/
def loadsObj : List (String × Json) → List (String × PyValue)
  | [] => []
  | (k, v) :: kvs => (k, loads_with_hook v) :: loadsObj kvs
end

mutual
/-- Modelled from the Python standard library (external to the repository):
the builtin `str()` as applied to cache-key arguments by
`generate_cache_key`.  Exact for text, integers, booleans, `None`,
`datetime`/`date` (which stringify to their ISO form, `datetime` with a
space separator) and `ObjectId` (whose `str` is its hex string); containers
render their elements by `repr` as CPython does, with `pyRepr` below
modelling `repr` without escape-sequence handling inside string quoting. -/
def pyStr : PyValue → String
  | PyValue.vstr s => s
  | PyValue.vint n => toString n
  | PyValue.vbool b => if b then "True" else "False"
  | PyValue.vnone => "None"
  | PyValue.vlist xs => "[" ++ reprJoin xs ++ "]"
  | PyValue.vdict kvs => "\x7b" ++ reprJoinKv kvs ++ "\x7d"
  | PyValue.vdatetime dt => dt.isoformat " "
  | PyValue.vdate d => d.isoformat
  | PyValue.vobjectid h => h

/-- Modelled from the Python standard library: the builtin `repr`, as used
for the elements of containers under `str()` (string escaping inside quotes
is not modelled). -/
def pyRepr : PyValue → String
  | PyValue.vstr s => "'" ++ s ++ "'"
  | PyValue.vint n => toString n
  | PyValue.vbool b => if b then "True" else "False"
  | PyValue.vnone => "None"
  | PyValue.vlist xs => "[" ++ reprJoin xs ++ "]"
  | PyValue.vdict kvs => "\x7b" ++ reprJoinKv kvs ++ "\x7d"
  | PyValue.vdatetime dt => "datetime.datetime(" ++ toString dt.year ++ ", " ++ toString dt.month
      ++ ", " ++ toString dt.day ++ ", " ++ toString dt.hour ++ ", " ++ toString dt.minute
      ++ (if dt.second == 0 ∧ dt.microsecond == 0 then "" else ", " ++ toString dt.second)
      ++ (if dt.microsecond == 0 then "" else ", " ++ toString dt.microsecond) ++ ")"
  | PyValue.vdate d => "datetime.date(" ++ toString d.year ++ ", " ++ toString d.month
      ++ ", " ++ toString d.day ++ ")"
  | PyValue.vobjectid h => "ObjectId('" ++ h ++ "')"

/-- Comma-joined `repr` of list elements. -/
def reprJoin : List PyValue → String
  | [] => ""
  | [x] => pyRepr x
  | x :: xs => pyRepr x ++ ", " ++ reprJoin xs

/-- Comma-joined `repr` of dict entries. -/
def reprJoinKv : List (String × PyValue) → String
  | [] => ""
  | [(k, v)] => "'" ++ k ++ "': " ++ pyRepr v
  | (k, v) :: kvs => "'" ++ k ++ "': " ++ pyRepr v ++ ", " ++ reprJoinKv kvs
end

/-- Models Python's `":".join(l)`. -/
def joinColon : List String → String
  | [] => ""
  | [s] => s
  | s :: rest => s ++ ":" ++ joinColon rest

/-- Models Python's `enumerate`, starting from index `i`. -/
def enumerate (i : Nat) : List α → List (Nat × α)
  | [] => []
  | a :: as => (i, a) :: enumerate (i + 1) as

/-- Embeds `generate_cache_key` (cache.py lines 89-115): positional
arguments are stringified and kept unless their index is in `skip_args`;
keyword arguments are kept unless their name is in `skip_kwargs`; the key is
`{prefix}:{func.__name__}:{':'.join(args)}:{':'.join(k:v pairs)}`.  Keyword
arguments are modelled as the insertion-ordered association list that a
Python `dict` iterates. -/
def generate_cache_key (fname : String) (args : List PyValue)
    (kwargs : List (String × PyValue)) (skip_args : List Nat)
    (skip_kwargs : List String) (pfx : String) : String :=
  let filtered_args := ((enumerate 0 args).filter
      (fun p => !(skip_args.contains p.1))).map (fun p => pyStr p.2)
  let filtered_kwargs := kwargs.filter (fun p => !(skip_kwargs.contains p.1))
  pfx ++ ":" ++ fname ++ ":" ++ joinColon filtered_args ++ ":"
    ++ joinColon (filtered_kwargs.map (fun p => p.1 ++ ":" ++ pyStr p.2))

/-- Log levels of the module's `logger` calls. -/
inductive LogLevel where
  | debug
  | info
  | warning
  | error
deriving DecidableEq

/-- The Redis keyspace as the module sees it: entries `key ↦ (serialized
JSON value, expiry parameter as passed to `SET ... ex=`)`.  Later writes are
consed in front; `Store.lookup` returns the most recent entry. -/
abbrev Store := List (String × Json × Option Nat)

/-- Most recent entry for a key. -/
def Store.lookup : Store → String → Option (Json × Option Nat)
  | [], _ => none
  | (k, e) :: rest, key => if k == key then some e else Store.lookup rest key

/-- Python truthiness of the `ttl: int | None` parameter: `not ttl` holds
for `None` and for `0`. -/
def ttlIsFalsy : Option Nat → Bool
  | none => true
  | some t => t == 0

/-- Embeds `set_cache` (cache.py lines 142-155), with the settled result of
`Cache.get_redis()` passed as `client` (see `get_redis` below for the
connection manager itself).  If `not ttl`, an error-level log is emitted
first; if the client is absent, a warning is logged and nothing is written;
otherwise the value is dumped (a `TypeError` from serialization is caught
and logged as a warning, dropping the write) and stored with `ex=ttl`. -/
def set_cache (client : Option Unit) (key : String) (value : PyValue)
    (ttl : Option Nat) (st : Store) (logs : List LogLevel) : Store × List LogLevel :=
  let logs1 := if ttlIsFalsy ttl then logs ++ [LogLevel.error] else logs
  match client with
  | none => (st, logs1 ++ [LogLevel.warning])
  | some _ =>
    match json_dumps value with
    | Except.error _ => (st, logs1 ++ [LogLevel.warning])
    | Except.ok j => ((key, j, ttl) :: st, logs1)

/-- Embeds `get_cache` (cache.py lines 158-174), with the settled result of
`Cache.get_redis()` passed as `client`.  An absent client logs a warning and
returns `None`; a missing key returns `None`; otherwise the stored value is
decoded with `json.loads(..., object_hook=deserialize_datetime)`.  The
Python function returns `Any` with `None` meaning "absent", so the result is
a `PyValue` in which `vnone` is the miss. -/
def get_cache (client : Option Unit) (key : String) (st : Store)
    (logs : List LogLevel) : PyValue × List LogLevel :=
  match client with
  | none => (PyValue.vnone, logs ++ [LogLevel.warning])
  | some _ =>
    match Store.lookup st key with
    | none => (PyValue.vnone, logs)
    | some (j, _) => (loads_with_hook j, logs)

/-- Embeds `_is_empty_data` (cache.py lines 208-222). -/
def is_empty_data : PyValue → Bool
  | PyValue.vnone => true
  | PyValue.vstr s => s.length == 0
  | PyValue.vlist xs => xs.length == 0
  | PyValue.vdict kvs => kvs.length == 0
  | _ => false

/-- Observable outcome of one call of a `unified_safe_cache`-wrapped
function: the returned value, the resulting keyspace and log trail, and
whether the wrapped producer was invoked. -/
structure CallResult where
  result : PyValue
  store : Store
  logs : List LogLevel
  invoked : Bool

/-- Embeds one call of the wrapper produced by `unified_safe_cache(expire,
prefix)` applied to `func` (cache.py lines 177-205).  The producer is
modelled by the value it returns when invoked (`producer`); `client` is the
settled connection state during the call.  The key is derived with the skip
lists left at their defaults (the decorator passes none), the cache is read
first, a non-`None` cached value is returned without invoking the producer,
and otherwise the producer runs and its result is written back unless
`_is_empty_data` holds (in which case a debug log records the skip). -/
def unified_safe_cache_call (expire : Nat) (pfx fname : String)
    (args : List PyValue) (kwargs : List (String × PyValue)) (producer : PyValue)
    (client : Option Unit) (st : Store) (logs : List LogLevel) : CallResult :=
  let cache_key := generate_cache_key fname args kwargs [] [] pfx
  match get_cache client cache_key st logs with
  | (PyValue.vnone, logs1) =>
    let result := producer
    if is_empty_data result then
      { result := result, store := st, logs := logs1 ++ [LogLevel.debug], invoked := true }
    else
      let (st2, logs2) := set_cache client cache_key result (some expire) st logs1
      { result := result, store := st2, logs := logs2, invoked := true }
  | (v, logs1) => { result := v, store := st, logs := logs1, invoked := false }

/-- The class-level connection state of `Cache` (cache.py lines 16-26):
whether `_cache_client` is set and whether `_cache_client_unavailable` has
been raised.  `Cache.__new__` starts the process at
`⟨false, false⟩`. -/
structure ConnState where
  clientPresent : Bool
  unavailable : Bool
deriving DecidableEq

/-- Embeds `Cache._initialize_redis` (cache.py lines 28-61), with the
outcome of the external connect-and-ping attempt supplied as `initOk`: on
success the client is stored; on a falsy ping or a raised
`RedisError`/`TimeoutError`/`ConnectionError` the client stays absent and
the manager is marked permanently unavailable. -/
def _initialize_redis (initOk : Bool) (s : ConnState) : ConnState :=
  if initOk then { s with clientPresent := true }
  else { s with clientPresent := false, unavailable := true }

/-- Embeds `Cache.get_redis` (cache.py lines 63-71) as a sequential step:
returns (client present?, new state, did this call attempt
initialization?).  If marked unavailable it returns `None` at once; if the
client exists it is returned; otherwise the initialization lock is taken,
the state re-checked (double-checked locking — in this sequential embedding
the re-check sees the same state), and initialization attempted. -/
def get_redis (initOk : Bool) (s : ConnState) : Bool × ConnState × Bool :=
  if s.unavailable then (false, s, false)
  else if s.clientPresent then (true, s, false)
  else if !s.clientPresent && !s.unavailable then
    let s1 := _initialize_redis initOk s
    (s1.clientPresent, s1, true)
  else (s.clientPresent, s, false)

/-- A sequence of `get_redis` calls with the given external init outcomes;
returns the final state and the number of initialization attempts made. -/
def runCalls : List Bool → ConnState → ConnState × Nat
  | [], s => (s, 0)
  | b :: bs, s =>
    let r := get_redis b s
    let rest := runCalls bs r.2.1
    (rest.1, (if r.2.2 then 1 else 0) + rest.2)

/-- Disjunction of a string predicate over every suffix of a string (how a
leading `*` of a glob pattern consumes input). -/
def globTail (m : List Char → Bool) : List Char → Bool
  | [] => m []
  | c :: s => m (c :: s) || globTail m s

/-- Modelled from the backend (external to the repository): Redis glob
matching over `*` (any run), `?` (any one character) and literal
characters, which covers every pattern the module constructs. -/
def globMatch : List Char → List Char → Bool
  | [], s => s.isEmpty
  | '*' :: ps, s => globTail (globMatch ps) s
  | '?' :: _, [] => false
  | '?' :: ps, _ :: s => globMatch ps s
  | _ :: _, [] => false
  | p :: ps, c :: s => p == c && globMatch ps s

/-- One pipelined multi-delete: drop every entry whose key is in the
batch. -/
def deleteKeys (st : Store) (keys : List String) : Store :=
  st.filter (fun e => !(keys.contains e.1))

/-- One iteration of the scan loop of `clear_pattern` as the backend answers
it: either a batch of matching keys (deleted through the pipeline) or a
raised `TimeoutError`/`ConnectionError`/`RedisError`. -/
inductive ScanStep where
  | batch (keys : List String)
  | errTimeout
  | errConn
  | errProtocol

/-- Embeds the scan/delete loop and exception handlers of `clear_pattern`
(cache.py lines 264-282) over a backend-supplied iteration sequence:
batches are deleted in order; a `TimeoutError`/`ConnectionError` is caught
and the function returns normally with the deletions made so far; a
`RedisError` is logged and re-raised (the returned flag records whether the
call raised). -/
def clear_pattern_run : List ScanStep → Store → Store × Bool
  | [], st => (st, false)
  | ScanStep.batch keys :: rest, st => clear_pattern_run rest (deleteKeys st keys)
  | ScanStep.errTimeout :: _, st => (st, false)
  | ScanStep.errConn :: _, st => (st, false)
  | ScanStep.errProtocol :: _, st => (st, true)

/-- The keys of the store matching a glob pattern — what a completed
error-free cursor scan returns over-all (SCAN guarantees every key present
throughout the scan is returned). -/
def scanKeys (st : Store) (pat : String) : List String :=
  (st.filter (fun e => globMatch pat.data e.1.data)).map (fun e => e.1)

/-- Embeds `clear_pattern` (cache.py lines 264-282) in its error-free
completed form: the pattern is `f"{prefix}*{pattern}*"` and the completed
scan returns exactly the matching keys, which the pipeline deletes.  Log
calls carry no state here and are elided. -/
def clear_pattern (st : Store) (pat pfx : String) : Store :=
  let full := pfx ++ "*" ++ pat ++ "*"
  (clear_pattern_run [ScanStep.batch (scanKeys st full)] st).1

/-- Embeds `clear_cache_by_pattern` (cache.py lines 255-261): an absent
client leaves the store untouched, otherwise `clear_pattern` runs. -/
def clear_cache_by_pattern (client : Option Unit) (st : Store) (pat : String)
    (pfx : String) : Store :=
  match client with
  | none => st
  | some _ => clear_pattern st pat pfx

/-- Embeds `clear_all_cache` (cache.py lines 285-291): with a reachable
client it clears pattern `*` under the default prefix `cache` (the defaults
`clear_cache_by_pattern` and `clear_pattern` fill in). -/
def clear_all_cache (client : Option Unit) (st : Store) : Store :=
  match client with
  | none => st
  | some _ => clear_cache_by_pattern client st "*" "cache"

/-- Every element followed by a colon (the shape of a `":".join` to the left
of a distinguished element). -/
def joinPre : List String → String
  | [] => ""
  | x :: xs => x ++ ":" ++ joinPre xs

/-- The contribution of the elements to the right of a distinguished element
in a `":".join`. -/
def joinTail : List String → String
  | [] => ""
  | x :: xs => ":" ++ joinColon (x :: xs)

/-- The stringified positional arguments that survive the skip filter of
`generate_cache_key`, starting the enumeration at index `i`. -/
def filteredArgStrs (skips : List Nat) (i : Nat) (args : List PyValue) : List String :=
  ((enumerate i args).filter (fun p => !(skips.contains p.1))).map (fun p => pyStr p.2)

/-- A value survives the codec: `json.dumps(·, default=serialize_datetime)`
succeeds and `json.loads(·, object_hook=deserialize_datetime)` returns the
value itself. -/
def roundTrips (r : PyValue) : Prop :=
  ∃ j, json_dumps r = Except.ok j ∧ loads_with_hook j = r

/-! ## Lemmas -/

/-- Two strings with the same character data are equal. -/
theorem string_data_inj {a b : String} (h : a.data = b.data) : a = b := by
  cases a
  cases b
  exact congrArg String.mk h

/-- String concatenation is associative. -/
theorem str_append_assoc (a b c : String) : a ++ b ++ c = a ++ (b ++ c) := by
  apply string_data_inj
  simp [String.data_append]

/-- Appending the empty string on the right is the identity. -/
theorem str_append_empty (a : String) : a ++ "" = a := by
  apply string_data_inj
  simp [String.data_append]

/-- Appending the empty string on the left is the identity. -/
theorem str_empty_append (a : String) : "" ++ a = a := by
  apply string_data_inj
  simp [String.data_append]

/-- Left cancellation for string concatenation. -/
theorem str_append_cancel_left {a b c : String} (h : a ++ b = a ++ c) : b = c := by
  apply string_data_inj
  have hd := congrArg String.data h
  simp only [String.data_append] at hd
  exact List.append_cancel_left hd

/-- Right cancellation for string concatenation. -/
theorem str_append_cancel_right {a b c : String} (h : a ++ c = b ++ c) : a = b := by
  apply string_data_inj
  have hd := congrArg String.data h
  simp only [String.data_append] at hd
  exact List.append_cancel_right hd

/-- `joinColon` of a list with at least two elements. -/
theorem joinColon_cons₂ (s x : String) (xs : List String) :
    joinColon (s :: x :: xs) = s ++ ":" ++ joinColon (x :: xs) := rfl

/-- A `":".join` splits around any distinguished element. -/
theorem joinColon_decomp (pre : List String) (s : String) (suf : List String) :
    joinColon (pre ++ s :: suf) = joinPre pre ++ (s ++ joinTail suf) := by
  induction pre with
  | nil =>
    cases suf with
    | nil => simp [joinColon, joinPre, joinTail, str_empty_append, str_append_empty]
    | cons x xs =>
      simp only [List.nil_append, joinPre, joinTail]
      rw [joinColon_cons₂, str_empty_append, str_append_assoc]
  | cons p pre ih =>
    have hx : ∃ x xs, pre ++ s :: suf = x :: xs := by
      cases hpre : pre ++ s :: suf with
      | nil => exact absurd hpre (by simp)
      | cons x xs => exact ⟨x, xs, rfl⟩
    obtain ⟨x, xs, hx⟩ := hx
    calc joinColon (p :: (pre ++ s :: suf))
        = p ++ ":" ++ joinColon (pre ++ s :: suf) := by rw [hx]; rfl
      _ = p ++ ":" ++ (joinPre pre ++ (s ++ joinTail suf)) := by rw [ih]
      _ = joinPre (p :: pre) ++ (s ++ joinTail suf) := by
          simp only [joinPre]
          rw [str_append_assoc (p ++ ":") (joinPre pre)]

/-- Changing a distinguished element of a `":".join` to a different string
changes the join. -/
theorem joinColon_ne (pre : List String) {s t : String} (suf : List String)
    (h : s ≠ t) : joinColon (pre ++ s :: suf) ≠ joinColon (pre ++ t :: suf) := by
  intro he
  rw [joinColon_decomp, joinColon_decomp] at he
  exact h (str_append_cancel_right (str_append_cancel_left he))

/-- `enumerate` distributes over append, shifting the start index. -/
theorem enumerate_append (l1 l2 : List α) : ∀ i : Nat,
    enumerate i (l1 ++ l2) = enumerate i l1 ++ enumerate (i + l1.length) l2 := by
  induction l1 with
  | nil => intro i; simp [enumerate]
  | cons a as ih =>
    intro i
    show (i, a) :: enumerate (i + 1) (as ++ l2)
        = ((i, a) :: enumerate (i + 1) as) ++ enumerate (i + (a :: as).length) l2
    rw [ih (i + 1)]
    have h2 : i + 1 + as.length = i + (a :: as).length := by
      simp only [List.length_cons]; omega
    rw [h2]
    simp [List.cons_append]

/-- `generate_cache_key` in decomposed form. -/
theorem generate_cache_key_eq (fname : String) (args : List PyValue)
    (kwargs : List (String × PyValue)) (sa : List Nat) (sk : List String)
    (pfx : String) :
    generate_cache_key fname args kwargs sa sk pfx
      = pfx ++ ":" ++ fname ++ ":" ++ joinColon (filteredArgStrs sa 0 args) ++ ":"
        ++ joinColon ((kwargs.filter (fun p => !(sk.contains p.1))).map
            (fun p => p.1 ++ ":" ++ pyStr p.2)) := rfl

/-- The surviving argument strings split around any argument position. -/
theorem filteredArgStrs_append (sa : List Nat) (l1 l2 : List PyValue) (i : Nat) :
    filteredArgStrs sa i (l1 ++ l2)
      = filteredArgStrs sa i l1 ++ filteredArgStrs sa (i + l1.length) l2 := by
  unfold filteredArgStrs
  rw [enumerate_append]
  simp [List.filter_append]

/-- The surviving argument strings at a cons: the head contributes exactly
when its index is not skipped. -/
theorem filteredArgStrs_cons (sa : List Nat) (i : Nat) (v : PyValue)
    (l : List PyValue) :
    filteredArgStrs sa i (v :: l)
      = (if sa.contains i then [] else [pyStr v]) ++ filteredArgStrs sa (i + 1) l := by
  unfold filteredArgStrs
  cases h : sa.contains i with
  | false =>
    have h' : i ∉ sa := by simpa using h
    simp [enumerate, List.filter_cons, h, h']
  | true =>
    have h' : i ∈ sa := by simpa using h
    simp [enumerate, List.filter_cons, h, h']

/-- With no skips, every argument's string form survives. -/
theorem filteredArgStrs_nil_skips (i : Nat) (args : List PyValue) :
    filteredArgStrs [] i args = args.map pyStr := by
  induction args generalizing i with
  | nil => rfl
  | cons v l ih => rw [filteredArgStrs_cons]; simp [ih]

/-- A suffix-disjunction holds as soon as the whole string satisfies the
predicate. -/
theorem globTail_of_head (m : List Char → Bool) (s : List Char)
    (h : m s = true) : globTail m s = true := by
  cases s <;> simp [globTail, h]

/-- A leading `*` of the pattern consumes any suffix of the input. -/
theorem globMatch_star_eq (ps : List Char) (s : List Char) :
    globMatch ('*' :: ps) s = globTail (globMatch ps) s := by
  cases s <;> rfl

/-- The pattern `*` matches everything. -/
theorem glob_one_star (s : List Char) : globMatch ['*'] s = true := by
  induction s with
  | nil => rfl
  | cons c s ih =>
    rw [globMatch_star_eq]
    simp only [globTail, Bool.or_eq_true]
    right
    rw [← globMatch_star_eq]
    exact ih

/-- The pattern `***` matches everything. -/
theorem glob_three_stars (s : List Char) : globMatch ['*', '*', '*'] s = true := by
  rw [globMatch_star_eq]
  apply globTail_of_head
  rw [globMatch_star_eq]
  apply globTail_of_head
  exact glob_one_star s

/-- The pattern `cache***` matches every key that starts with `cache`. -/
theorem glob_cache_matches (k : String) (h : ∃ t, k.data = ("cache").data ++ t) :
    globMatch ("cache***" : String).data k.data = true := by
  obtain ⟨t, ht⟩ := h
  rw [ht]
  show globMatch ['c', 'a', 'c', 'h', 'e', '*', '*', '*']
      (['c', 'a', 'c', 'h', 'e'] ++ t) = true
  show globMatch ['*', '*', '*'] t = true
  exact glob_three_stars t

/-- Looking up a key in a filtered store fails when the filter rejects every
entry carrying that key. -/
theorem lookup_filter_none (st : Store) (k : String)
    (p : String × Json × Option Nat → Bool)
    (h : ∀ e ∈ st, e.1 = k → p e = false) :
    Store.lookup (st.filter p) k = none := by
  induction st with
  | nil => rfl
  | cons e rest ih =>
    have hrest : ∀ e' ∈ rest, e'.1 = k → p e' = false :=
      fun e' he' => h e' (List.mem_cons_of_mem e he')
    cases hp : p e with
    | false => simpa [List.filter_cons, hp] using ih hrest
    | true =>
      rw [List.filter_cons, hp]
      show Store.lookup (e :: rest.filter p) k = none
      obtain ⟨ek, ev⟩ := e
      by_cases hk : ek = k
      · exact absurd hp (by simp [h ⟨ek, ev⟩ (List.mem_cons_self _ _) hk])
      · simpa [Store.lookup, hk] using ih hrest

/-- After `clear_all_cache` with a reachable client, no key starting with
the default prefix `cache` remains. -/
theorem clear_all_lookup_none (st : Store) (k : String)
    (h : ∃ t, k.data = ("cache").data ++ t) :
    Store.lookup (clear_all_cache (some ()) st) k = none := by
  show Store.lookup (deleteKeys st (scanKeys st ("cache***"))) k = none
  apply lookup_filter_none
  intro e he hek
  have hm : globMatch ("cache***" : String).data e.1.data = true := by
    rw [hek]; exact glob_cache_matches k h
  have hmem : e.1 ∈ scanKeys st ("cache***") := by
    unfold scanKeys
    exact List.mem_map.mpr ⟨e, List.mem_filter.mpr ⟨he, hm⟩, rfl⟩
  simp [hmem]

/-- In a settled state (client present or marked unavailable) `get_redis`
changes nothing and makes no initialization attempt. -/
theorem get_redis_settled (b : Bool) (s : ConnState)
    (h : s.clientPresent = true ∨ s.unavailable = true) :
    (get_redis b s).2.1 = s ∧ (get_redis b s).2.2 = false := by
  unfold get_redis
  rcases h with h | h
  · cases hu : s.unavailable <;> simp [h, hu]
  · simp [h]

/-- From a settled state, a whole call sequence makes no initialization
attempt. -/
theorem runCalls_settled (outcomes : List Bool) : ∀ s : ConnState,
    s.clientPresent = true ∨ s.unavailable = true → (runCalls outcomes s).2 = 0 := by
  induction outcomes with
  | nil => intro s _; rfl
  | cons b bs ih =>
    intro s h
    obtain ⟨h1, h2⟩ := get_redis_settled b s h
    simp only [runCalls, h2, h1, if_false, Bool.false_eq_true]
    rw [ih s h]

/-- The first `get_redis` from the pristine state attempts initialization
and lands in a settled state. -/
theorem get_redis_initial (b : Bool) :
    get_redis b ⟨false, false⟩ = (b, _initialize_redis b ⟨false, false⟩, true) := by
  cases b <;> rfl

/-- Looking up the entry just written. -/
theorem lookup_cons_self (k : String) (e : Json × Option Nat) (st : Store) :
    Store.lookup ((k, e) :: st) k = some e := by
  simp [Store.lookup]

/-- `get_cache` without a client: warn and miss. -/
theorem get_cache_no_client (key : String) (st : Store) (logs : List LogLevel) :
    get_cache none key st logs = (PyValue.vnone, logs ++ [LogLevel.warning]) := rfl

/-- `get_cache` on a missing key. -/
theorem get_cache_miss (key : String) (st : Store) (logs : List LogLevel)
    (h : Store.lookup st key = none) :
    get_cache (some ()) key st logs = (PyValue.vnone, logs) := by
  simp [get_cache, h]

/-- `get_cache` on a present key decodes the stored value with the
object hook. -/
theorem get_cache_found (key : String) (st : Store) (logs : List LogLevel)
    (j : Json) (e : Option Nat) (h : Store.lookup st key = some (j, e)) :
    get_cache (some ()) key st logs = (loads_with_hook j, logs) := by
  simp [get_cache, h]

/-- `set_cache` with a serializable value writes the entry, logging an
error first when the TTL is falsy. -/
theorem set_cache_ok (key : String) (value : PyValue) (ttl : Option Nat)
    (st : Store) (logs : List LogLevel) (j : Json)
    (hj : json_dumps value = Except.ok j) :
    set_cache (some ()) key value ttl st logs
      = ((key, j, ttl) :: st,
         if ttlIsFalsy ttl then logs ++ [LogLevel.error] else logs) := by
  simp [set_cache, hj]

/-- A wrapped call that misses and computes a non-empty, serializable
result writes it back and returns it. -/
theorem wrapper_miss_store (expire : Nat) (pfx fname : String)
    (args : List PyValue) (kwargs : List (String × PyValue)) (producer : PyValue)
    (st : Store) (logs logs1 : List LogLevel) (j : Json)
    (hg : get_cache (some ()) (generate_cache_key fname args kwargs [] [] pfx) st logs
        = (PyValue.vnone, logs1))
    (hne : is_empty_data producer = false)
    (hj : json_dumps producer = Except.ok j) :
    unified_safe_cache_call expire pfx fname args kwargs producer (some ()) st logs
      = { result := producer,
          store := (generate_cache_key fname args kwargs [] [] pfx, j, some expire) :: st,
          logs := if ttlIsFalsy (some expire) then logs1 ++ [LogLevel.error] else logs1,
          invoked := true } := by
  simp only [unified_safe_cache_call, hg, hne, Bool.false_eq_true, if_false,
    set_cache_ok _ _ _ _ _ _ hj]

/-- A wrapped call that misses and computes an empty result skips the
write. -/
theorem wrapper_miss_skip (expire : Nat) (pfx fname : String)
    (args : List PyValue) (kwargs : List (String × PyValue)) (producer : PyValue)
    (client : Option Unit) (st : Store) (logs logs1 : List LogLevel)
    (hg : get_cache client (generate_cache_key fname args kwargs [] [] pfx) st logs
        = (PyValue.vnone, logs1))
    (hemp : is_empty_data producer = true) :
    unified_safe_cache_call expire pfx fname args kwargs producer client st logs
      = { result := producer, store := st, logs := logs1 ++ [LogLevel.debug],
          invoked := true } := by
  simp only [unified_safe_cache_call, hg, hemp, if_true]

/-- A wrapped call whose cache read returns a non-`None` value returns it
without invoking the producer. -/
theorem wrapper_hit (expire : Nat) (pfx fname : String)
    (args : List PyValue) (kwargs : List (String × PyValue)) (producer : PyValue)
    (client : Option Unit) (st : Store) (logs logs1 : List LogLevel) (v : PyValue)
    (hg : get_cache client (generate_cache_key fname args kwargs [] [] pfx) st logs
        = (v, logs1))
    (hv : v ≠ PyValue.vnone) :
    unified_safe_cache_call expire pfx fname args kwargs producer client st logs
      = { result := v, store := st, logs := logs1, invoked := false } := by
  cases v
  case vnone => exact absurd rfl hv
  all_goals simp only [unified_safe_cache_call, hg]

/-- A value classified non-empty is not `None`. -/
theorem not_vnone_of_not_empty {r : PyValue} (h : is_empty_data r = false) :
    r ≠ PyValue.vnone := by
  intro hr
  rw [hr] at h
  simp [is_empty_data] at h

/-- `get_cache` with a client: the value component does not depend on the
incoming log trail, which passes through unchanged. -/
theorem get_cache_logs (key : String) (st : Store) (logs : List LogLevel) :
    get_cache (some ()) key st logs = ((get_cache (some ()) key st []).1, logs) := by
  cases h : Store.lookup st key with
  | none => simp [get_cache, h]
  | some e => obtain ⟨j, ttl⟩ := e; simp [get_cache, h]

/-- Keys sharing everything but the joined positional-argument block differ
when the blocks differ. -/
theorem key_args_ne (pfx fname : String) {ja jb : String} (jk : String)
    (h : ja ≠ jb) :
    pfx ++ ":" ++ fname ++ ":" ++ ja ++ ":" ++ jk
      ≠ pfx ++ ":" ++ fname ++ ":" ++ jb ++ ":" ++ jk := by
  intro he
  apply h
  have h1 := congrArg String.data he
  simp only [String.data_append, List.append_assoc] at h1
  exact string_data_inj (List.append_cancel_right
    (List.append_cancel_left (List.append_cancel_left
      (List.append_cancel_left (List.append_cancel_left h1)))))

/-- Keys sharing everything but the joined keyword-argument block differ
when the blocks differ. -/
theorem key_kwargs_ne (pfx fname ja : String) {jk1 jk2 : String}
    (h : jk1 ≠ jk2) :
    pfx ++ ":" ++ fname ++ ":" ++ ja ++ ":" ++ jk1
      ≠ pfx ++ ":" ++ fname ++ ":" ++ ja ++ ":" ++ jk2 := by
  intro he
  apply h
  have h1 := congrArg String.data he
  simp only [String.data_append, List.append_assoc] at h1
  exact string_data_inj (List.append_cancel_left (List.append_cancel_left
    (List.append_cancel_left (List.append_cancel_left
      (List.append_cancel_left (List.append_cancel_left h1))))))

/-- The keyword block of the key around one kept entry. -/
theorem kwStrs_decomp (sk : List String) (kpre : List (String × PyValue))
    (k : String) (u : PyValue) (kpost : List (String × PyValue))
    (hk : sk.contains k = false) :
    ((kpre ++ (k, u) :: kpost).filter (fun p => !(sk.contains p.1))).map
        (fun p => p.1 ++ ":" ++ pyStr p.2)
      = (kpre.filter (fun p => !(sk.contains p.1))).map
          (fun p => p.1 ++ ":" ++ pyStr p.2)
        ++ ((k ++ ":" ++ pyStr u)
          :: (kpost.filter (fun p => !(sk.contains p.1))).map
              (fun p => p.1 ++ ":" ++ pyStr p.2)) := by
  have hk' : k ∉ sk := by simpa using hk
  simp [List.filter_append, List.filter_cons, hk']

/-- The keyword block of the key around one skipped entry. -/
theorem kwStrs_decomp_skip (sk : List String) (kpre : List (String × PyValue))
    (k : String) (u : PyValue) (kpost : List (String × PyValue))
    (hk : sk.contains k = true) :
    ((kpre ++ (k, u) :: kpost).filter (fun p => !(sk.contains p.1))).map
        (fun p => p.1 ++ ":" ++ pyStr p.2)
      = (kpre.filter (fun p => !(sk.contains p.1))).map
          (fun p => p.1 ++ ":" ++ pyStr p.2)
        ++ (kpost.filter (fun p => !(sk.contains p.1))).map
            (fun p => p.1 ++ ":" ++ pyStr p.2) := by
  have hk' : k ∈ sk := by simpa using hk
  simp [List.filter_append, List.filter_cons, hk']

/-- The positional block of the key around one argument position. -/
theorem argStrs_decomp (sa : List Nat) (apre : List PyValue) (u : PyValue)
    (asuf : List PyValue) :
    filteredArgStrs sa 0 (apre ++ u :: asuf)
      = filteredArgStrs sa 0 apre
        ++ ((if sa.contains apre.length then [] else [pyStr u])
          ++ filteredArgStrs sa (apre.length + 1) asuf) := by
  rw [filteredArgStrs_append, filteredArgStrs_cons]
  simp only [Nat.zero_add]

/-! ## Claims -/

/-- C1 — code bug, evaluated at the failing input.  The claim says date and
date-time values round-trip exactly as date/date-time values and document
identifiers are encoded to their canonical string form.  On the code:
encoding `datetime(2025, 1, 2, 3, 4, 5)` stores the ISO string, but decode
returns that string as plain text — `json.loads` applies its `object_hook`
only to JSON objects (dicts), never to strings, even when the string sits
inside a dict — although `deserialize_datetime` itself, applied directly to
the string, would restore the datetime (conjuncts four and five exhibit the
mis-wiring).  And encoding `ObjectId("507f1f77bcf86cd799439011")` raises
`TypeError`: `json.dumps` is called with `default=serialize_datetime`, and
the `CustomJSONEncoder` that handles `ObjectId` is never used. -/
theorem c1_codec_failing_inputs :
    json_dumps (PyValue.vdatetime ⟨2025, 1, 2, 3, 4, 5, 0⟩)
        = Except.ok (Json.str "2025-01-02T03:04:05")
    ∧ loads_with_hook (Json.str "2025-01-02T03:04:05")
        = PyValue.vstr "2025-01-02T03:04:05"
    ∧ PyValue.vstr "2025-01-02T03:04:05" ≠ PyValue.vdatetime ⟨2025, 1, 2, 3, 4, 5, 0⟩
    ∧ loads_with_hook (Json.obj [("t", Json.str "2025-01-02T03:04:05")])
        = PyValue.vdict [("t", PyValue.vstr "2025-01-02T03:04:05")]
    ∧ deserialize_datetime (PyValue.vstr "2025-01-02T03:04:05")
        = PyValue.vdatetime ⟨2025, 1, 2, 3, 4, 5, 0⟩
    ∧ datetime_fromisoformat "2025-01-02T03:04:05" = some ⟨2025, 1, 2, 3, 4, 5, 0⟩
    ∧ json_dumps (PyValue.vobjectid "507f1f77bcf86cd799439011")
        = Except.error "Type ObjectId not serializable" :=
  ⟨rfl, rfl, by simp, rfl, rfl, rfl, rfl⟩

/-- C2 — counterexample to the claim as stated.  A producer whose result is
the empty string is never cached (the emptiness policy), so two calls of the
wrapped function with the same arguments and a reachable cache invoke the
underlying producer twice — not "at most once". -/
theorem c2_counterexample :
    (unified_safe_cache_call 60 "cache" "f" [] [] (PyValue.vstr "")
        (some ()) [] []).invoked = true
    ∧ (unified_safe_cache_call 60 "cache" "f" [] [] (PyValue.vstr "") (some ())
        (unified_safe_cache_call 60 "cache" "f" [] [] (PyValue.vstr "")
          (some ()) [] []).store
        (unified_safe_cache_call 60 "cache" "f" [] [] (PyValue.vstr "")
          (some ()) [] []).logs).invoked = true :=
  ⟨rfl, rfl⟩

/-- C2 (amended): for a producer whose result is non-empty and survives the
codec (serializes, and decodes back to itself — which the datetime decode
bug denies to date/date-time-bearing results), two successive calls of the
wrapped function with the same arguments and a reachable cache invoke the
producer at most once, and the second call returns a value equal to the
first call's result. -/
theorem c2_cache_aside_idempotent (expire : Nat) (pfx fname : String)
    (args : List PyValue) (kwargs : List (String × PyValue)) (r : PyValue)
    (st : Store) (logs : List LogLevel) (c1 c2 : CallResult)
    (hne : is_empty_data r = false) (hrt : roundTrips r)
    (h1 : c1 = unified_safe_cache_call expire pfx fname args kwargs r (some ()) st logs)
    (h2 : c2 = unified_safe_cache_call expire pfx fname args kwargs r (some ())
        c1.store c1.logs) :
    (c1.invoked = false ∨ c2.invoked = false) ∧ c2.result = c1.result := by
  obtain ⟨j, hj, hload⟩ := hrt
  rcases hg : get_cache (some ()) (generate_cache_key fname args kwargs [] [] pfx) st logs
    with ⟨v, logs1⟩
  by_cases hv : v = PyValue.vnone
  · subst hv
    have hc1 := wrapper_miss_store expire pfx fname args kwargs r st logs logs1 j hg hne hj
    rw [← h1] at hc1
    have hlook : Store.lookup c1.store (generate_cache_key fname args kwargs [] [] pfx)
        = some (j, some expire) := by
      rw [hc1]
      exact lookup_cons_self _ _ _
    have hg2 := get_cache_found (generate_cache_key fname args kwargs [] [] pfx)
      c1.store c1.logs j (some expire) hlook
    rw [hload] at hg2
    have hc2 := wrapper_hit expire pfx fname args kwargs r (some ()) c1.store c1.logs
      c1.logs r hg2 (not_vnone_of_not_empty hne)
    rw [← h2] at hc2
    refine ⟨Or.inr (by rw [hc2]), ?_⟩
    rw [hc2, hc1]
  · have hc1 := wrapper_hit expire pfx fname args kwargs r (some ()) st logs logs1 v hg hv
    rw [← h1] at hc1
    have hval : (get_cache (some ()) (generate_cache_key fname args kwargs [] [] pfx)
        st []).1 = v := by
      rw [get_cache_logs] at hg
      exact congrArg Prod.fst hg
    have hg2 : get_cache (some ()) (generate_cache_key fname args kwargs [] [] pfx)
        c1.store c1.logs = (v, c1.logs) := by
      rw [hc1]
      rw [get_cache_logs, hval]
    have hc2 := wrapper_hit expire pfx fname args kwargs r (some ()) c1.store c1.logs
      c1.logs v hg2 hv
    rw [← h2] at hc2
    refine ⟨Or.inl (by rw [hc1]), ?_⟩
    rw [hc2, hc1]

/-- Closed instance of `c2_cache_aside_idempotent`: a producer returning the
integer 7 is computed once and served from cache on the second call. -/
theorem c2_cache_aside_idempotent_witness :
    is_empty_data (PyValue.vint 7) = false
    ∧ roundTrips (PyValue.vint 7)
    ∧ (((unified_safe_cache_call 60 "cache" "f" [] [] (PyValue.vint 7)
          (some ()) [] []).invoked = false
        ∨ (unified_safe_cache_call 60 "cache" "f" [] [] (PyValue.vint 7) (some ())
            (unified_safe_cache_call 60 "cache" "f" [] [] (PyValue.vint 7)
              (some ()) [] []).store
            (unified_safe_cache_call 60 "cache" "f" [] [] (PyValue.vint 7)
              (some ()) [] []).logs).invoked = false)
      ∧ (unified_safe_cache_call 60 "cache" "f" [] [] (PyValue.vint 7) (some ())
          (unified_safe_cache_call 60 "cache" "f" [] [] (PyValue.vint 7)
            (some ()) [] []).store
          (unified_safe_cache_call 60 "cache" "f" [] [] (PyValue.vint 7)
            (some ()) [] []).logs).result
        = (unified_safe_cache_call 60 "cache" "f" [] [] (PyValue.vint 7)
            (some ()) [] []).result) :=
  ⟨rfl, ⟨Json.num 7, rfl, rfl⟩,
    c2_cache_aside_idempotent 60 "cache" "f" [] [] (PyValue.vint 7) [] [] _ _
      rfl ⟨Json.num 7, rfl, rfl⟩ rfl rfl⟩

/-- C3 — counterexample to the claim as stated.  For TTL zero the claim
says a warning is logged and the entry is stored with no expiry.  On the
code: the only log emitted is error-level (`logger.error`, not a warning),
and the entry is written with expiry parameter `0` passed through to the
backend — not with "no expiry". -/
theorem c3_counterexample :
    set_cache (some ()) "k" (PyValue.vint 1) (some 0) [] []
        = ([("k", Json.num 1, some 0)], [LogLevel.error])
    ∧ (some 0 : Option Nat) ≠ none
    ∧ LogLevel.error ≠ LogLevel.warning :=
  ⟨rfl, by simp, by simp⟩

/-- C3 (amended): for every key and serializable value, a TTL of zero or
absent logs an error-level message but the write still proceeds, passing
the TTL through unchanged — so an absent TTL stores the entry with no
expiry, while a zero TTL hands the backend expiry parameter `0`. -/
theorem c3_ttl_falsy_write_through (key : String) (value : PyValue) (j : Json)
    (ttl : Option Nat) (st : Store) (logs : List LogLevel)
    (hj : json_dumps value = Except.ok j) (ht : ttlIsFalsy ttl = true) :
    set_cache (some ()) key value ttl st logs
      = ((key, j, ttl) :: st, logs ++ [LogLevel.error]) := by
  rw [set_cache_ok key value ttl st logs j hj, ht]
  simp

/-- Closed instance of `c3_ttl_falsy_write_through` at an absent TTL. -/
theorem c3_ttl_falsy_write_through_witness :
    json_dumps (PyValue.vint 1) = Except.ok (Json.num 1)
    ∧ ttlIsFalsy none = true
    ∧ set_cache (some ()) "k" (PyValue.vint 1) none [] []
        = ([("k", Json.num 1, none)], [LogLevel.error]) :=
  ⟨rfl, rfl, c3_ttl_falsy_write_through "k" (PyValue.vint 1) (Json.num 1) none [] [] rfl rfl⟩

/-- C4 — confirmed.  If a call of the wrapped function invokes the producer
and the producer's result is empty (absent, or zero-length text/sequence/
mapping), the wrapper stores nothing — the keyspace after the call is
exactly the keyspace before it — and a second call with the same arguments
invokes the producer again.  This holds whether or not the backend is
reachable. -/
theorem c4_empty_results_not_cached (expire : Nat) (pfx fname : String)
    (args : List PyValue) (kwargs : List (String × PyValue)) (r : PyValue)
    (client : Option Unit) (st : Store) (logs : List LogLevel) (c1 c2 : CallResult)
    (hemp : is_empty_data r = true)
    (h1 : c1 = unified_safe_cache_call expire pfx fname args kwargs r client st logs)
    (h2 : c2 = unified_safe_cache_call expire pfx fname args kwargs r client
        c1.store c1.logs)
    (hinv : c1.invoked = true) :
    c1.store = st ∧ c2.invoked = true := by
  rcases hg : get_cache client (generate_cache_key fname args kwargs [] [] pfx) st logs
    with ⟨v, logs1⟩
  by_cases hv : v = PyValue.vnone
  · subst hv
    have hc1 := wrapper_miss_skip expire pfx fname args kwargs r client st logs logs1 hg hemp
    rw [← h1] at hc1
    have hst : c1.store = st := by rw [hc1]
    refine ⟨hst, ?_⟩
    cases client with
    | none =>
      have hg2 := get_cache_no_client (generate_cache_key fname args kwargs [] [] pfx)
        c1.store c1.logs
      have hc2 := wrapper_miss_skip expire pfx fname args kwargs r none c1.store c1.logs
        (c1.logs ++ [LogLevel.warning]) hg2 hemp
      rw [← h2] at hc2
      rw [hc2]
    | some u =>
      obtain ⟨⟩ := u
      have hval : (get_cache (some ()) (generate_cache_key fname args kwargs [] [] pfx)
          st []).1 = PyValue.vnone := by
        rw [get_cache_logs] at hg
        exact congrArg Prod.fst hg
      have hg2 : get_cache (some ()) (generate_cache_key fname args kwargs [] [] pfx)
          c1.store c1.logs = (PyValue.vnone, c1.logs) := by
        rw [hst, get_cache_logs, hval]
      have hc2 := wrapper_miss_skip expire pfx fname args kwargs r (some ()) c1.store
        c1.logs c1.logs hg2 hemp
      rw [← h2] at hc2
      rw [hc2]
  · have hc1 := wrapper_hit expire pfx fname args kwargs r client st logs logs1 v hg hv
    rw [← h1] at hc1
    rw [hc1] at hinv
    exact absurd hinv (by simp)

/-- Closed instance of `c4_empty_results_not_cached`: a producer returning
the empty list leaves the keyspace empty and is re-invoked. -/
theorem c4_empty_results_not_cached_witness :
    is_empty_data (PyValue.vlist []) = true
    ∧ (unified_safe_cache_call 60 "cache" "f" [] [] (PyValue.vlist [])
        (some ()) [] []).invoked = true
    ∧ ((unified_safe_cache_call 60 "cache" "f" [] [] (PyValue.vlist [])
          (some ()) [] []).store = []
      ∧ (unified_safe_cache_call 60 "cache" "f" [] [] (PyValue.vlist []) (some ())
          (unified_safe_cache_call 60 "cache" "f" [] [] (PyValue.vlist [])
            (some ()) [] []).store
          (unified_safe_cache_call 60 "cache" "f" [] [] (PyValue.vlist [])
            (some ()) [] []).logs).invoked = true) :=
  ⟨rfl, rfl,
    c4_empty_results_not_cached 60 "cache" "f" [] [] (PyValue.vlist []) (some ()) [] []
      _ _ rfl rfl rfl rfl⟩

/-- C6 — confirmed.  Once the connection manager is marked permanently
unavailable, every `get_redis` call returns `None` immediately, changes no
state, and makes no initialization attempt; and over any sequence of
`get_redis` calls from the pristine process state (client absent, not
unavailable), initialization is attempted at most once, whatever the
outcomes of the external connect attempts. -/
theorem c6_terminal_unavailability :
    (∀ (c b : Bool), get_redis b ⟨c, true⟩ = (false, ⟨c, true⟩, false))
    ∧ (∀ outcomes : List Bool, (runCalls outcomes ⟨false, false⟩).2 ≤ 1) := by
  constructor
  · intro c b
    rfl
  · intro outcomes
    cases outcomes with
    | nil => simp [runCalls]
    | cons b bs =>
      have hsettled : (_initialize_redis b ⟨false, false⟩).clientPresent = true
          ∨ (_initialize_redis b ⟨false, false⟩).unavailable = true := by
        cases b <;> simp [_initialize_redis]
      simp only [runCalls, get_redis_initial, if_true]
      rw [runCalls_settled bs _ hsettled]

/-- C7 — counterexample to the claim as stated.  `set_cache` accepts
arbitrary keys, but `clear_all_cache` only deletes keys matching
`cache***`.  The key `"k"`, previously written via set with the backend
reachable, still yields its value after `clear_all_cache` — not absent. -/
theorem c7_counterexample :
    (get_cache (some ()) "k"
        (clear_all_cache (some ())
          ((set_cache (some ()) "k" (PyValue.vint 5) (some 60) [] []).1)) []).1
      = PyValue.vint 5
    ∧ PyValue.vint 5 ≠ PyValue.vnone :=
  ⟨rfl, by simp⟩

/-- C7 (amended): after `clear_all_cache` completes with the backend
reachable, a subsequent get of any key in the default cache namespace (any
key starting with the prefix `cache`, which covers every key the decorator
writes under the default prefix) returns absent. -/
theorem c7_invalidation_namespace_complete (st : Store) (k : String)
    (logs : List LogLevel) (h : ∃ t, k.data = ("cache").data ++ t) :
    (get_cache (some ()) k (clear_all_cache (some ()) st) logs).1
      = PyValue.vnone := by
  rw [get_cache_miss k (clear_all_cache (some ()) st) logs
    (clear_all_lookup_none st k h)]

/-- Closed instance of `c7_invalidation_namespace_complete`: the key
`cache:f::` written via set is absent after `clear_all_cache`. -/
theorem c7_invalidation_namespace_complete_witness :
    ("cache:f::").data = ("cache").data ++ (":f::").data
    ∧ (get_cache (some ()) "cache:f::"
        (clear_all_cache (some ())
          ((set_cache (some ()) "cache:f::" (PyValue.vint 5) (some 60) [] []).1)) []).1
      = PyValue.vnone :=
  ⟨rfl, c7_invalidation_namespace_complete
    ((set_cache (some ()) "cache:f::" (PyValue.vint 5) (some 60) [] []).1)
    "cache:f::" [] ⟨(":f::").data, rfl⟩⟩

/-- C8 — confirmed.  Over any scan iteration sequence: batches preceding
the first error are deleted; a timeout or connection error makes the
operation return normally (no raise) keeping those deletions and processing
nothing further (no retry); a protocol-level `RedisError` is re-raised,
likewise after the completed deletions; and an error-free scan completes
with all batches deleted and no raise. -/
theorem c8_invalidator_error_policy (bs : List (List String)) (st : Store)
    (rest : List ScanStep) :
    clear_pattern_run (bs.map ScanStep.batch ++ ScanStep.errTimeout :: rest) st
        = (bs.foldl deleteKeys st, false)
    ∧ clear_pattern_run (bs.map ScanStep.batch ++ ScanStep.errConn :: rest) st
        = (bs.foldl deleteKeys st, false)
    ∧ clear_pattern_run (bs.map ScanStep.batch ++ ScanStep.errProtocol :: rest) st
        = (bs.foldl deleteKeys st, true)
    ∧ clear_pattern_run (bs.map ScanStep.batch) st = (bs.foldl deleteKeys st, false) := by
  induction bs generalizing st with
  | nil => exact ⟨rfl, rfl, rfl, rfl⟩
  | cons keys bs ih =>
    obtain ⟨iht, ihc, ihp, ihn⟩ := ih (deleteKeys st keys)
    exact ⟨iht, ihc, ihp, ihn⟩

/-- C9 — confirmed.  With the backend connection unavailable (client
absent), `get_cache` returns absent, `set_cache` leaves the keyspace
unchanged, and a wrapped call invokes the producer, returns its result, and
leaves the keyspace unchanged; all three are total functions of the state —
no cache-layer exception reaches the caller. -/
theorem c9_degraded_mode (key : String) (value : PyValue) (ttl : Option Nat)
    (expire : Nat) (pfx fname : String) (args : List PyValue)
    (kwargs : List (String × PyValue)) (producer : PyValue) (st : Store)
    (logs : List LogLevel) :
    (get_cache none key st logs).1 = PyValue.vnone
    ∧ (set_cache none key value ttl st logs).1 = st
    ∧ (unified_safe_cache_call expire pfx fname args kwargs producer none st logs).invoked
        = true
    ∧ (unified_safe_cache_call expire pfx fname args kwargs producer none st logs).result
        = producer
    ∧ (unified_safe_cache_call expire pfx fname args kwargs producer none st logs).store
        = st := by
  refine ⟨rfl, rfl, ?_⟩
  · have hg := get_cache_no_client (generate_cache_key fname args kwargs [] [] pfx) st logs
    cases hemp : is_empty_data producer with
    | true =>
      rw [wrapper_miss_skip expire pfx fname args kwargs producer none st logs _ hg hemp]
      exact ⟨rfl, rfl, rfl⟩
    | false =>
      simp [unified_safe_cache_call, hg, hemp, set_cache]

/-- C10 — confirmed.  The decorator derives its key with both skip sets
empty, so the key is exactly the prefix, the function name, the string form
of every positional argument in order, and every keyword pair in order —
no argument can be excluded; and a wrapped call that misses and computes a
non-empty serializable result writes the cache at exactly that key. -/
theorem c10_all_arguments_in_key (fname pfx : String) (args : List PyValue)
    (kwargs : List (String × PyValue)) :
    generate_cache_key fname args kwargs [] [] pfx
      = pfx ++ ":" ++ fname ++ ":" ++ joinColon (args.map pyStr) ++ ":"
        ++ joinColon (kwargs.map (fun p => p.1 ++ ":" ++ pyStr p.2))
    ∧ ∀ (expire : Nat) (r : PyValue) (j : Json) (logs : List LogLevel),
        is_empty_data r = false → json_dumps r = Except.ok j →
        (unified_safe_cache_call expire pfx fname args kwargs r (some ()) [] logs).store
          = [(generate_cache_key fname args kwargs [] [] pfx, j, some expire)] := by
  constructor
  · rw [generate_cache_key_eq, filteredArgStrs_nil_skips]
    have hkw : kwargs.filter (fun p => !(([] : List String).contains p.1)) = kwargs := by
      simp
    rw [hkw]
  · intro expire r j logs hne hj
    have hg := get_cache_miss (generate_cache_key fname args kwargs [] [] pfx) [] logs rfl
    rw [wrapper_miss_store expire pfx fname args kwargs r [] logs logs j hg hne hj]

/-- Closed instance of `c10_all_arguments_in_key`: both positional and
keyword arguments appear in the derived key, and the miss-write lands at
that key. -/
theorem c10_all_arguments_in_key_witness :
    generate_cache_key "f" [PyValue.vint 1, PyValue.vstr "a"]
        [("b", PyValue.vint 2)] [] [] "cache" = "cache:f:1:a:b:2"
    ∧ (unified_safe_cache_call 60 "cache" "f" [PyValue.vint 1, PyValue.vstr "a"]
        [("b", PyValue.vint 2)] (PyValue.vint 9) (some ()) [] []).store
      = [("cache:f:1:a:b:2", Json.num 9, some 60)] := by
  have h := c10_all_arguments_in_key "f" "cache" [PyValue.vint 1, PyValue.vstr "a"]
    [("b", PyValue.vint 2)]
  have h2 := h.2 60 (PyValue.vint 9) (Json.num 9) [] rfl rfl
  exact ⟨rfl, h2.trans (by exact rfl)⟩

/-- C5 — counterexample to the claim as stated.  Arguments enter the key
through Python `str()`, so changing the non-skipped first argument from the
integer `1` to the string `"1"` — a different value — leaves the key
unchanged: both derive `cache:f:1:`. -/
theorem c5_counterexample :
    generate_cache_key "f" [PyValue.vint 1] [] [] [] "cache"
      = generate_cache_key "f" [PyValue.vstr "1"] [] [] [] "cache"
    ∧ PyValue.vint 1 ≠ PyValue.vstr "1" :=
  ⟨rfl, by simp⟩

/-- C5 (amended): key derivation is a pure function, so repeated calls with
identical inputs yield an identical key; changing only the value of a
skipped argument (positional by index, keyword by name) leaves the key
unchanged; and changing the value of a non-skipped argument changes the key
provided the two values have different string forms (with equal string
forms, such as `1` versus `"1"`, the key cannot change). -/
theorem c5_key_derivation (fname pfx : String) :
    (∀ (args : List PyValue) (kwargs : List (String × PyValue)) (sa : List Nat)
        (sk : List String),
      generate_cache_key fname args kwargs sa sk pfx
        = generate_cache_key fname args kwargs sa sk pfx)
    ∧ (∀ (apre : List PyValue) (v w : PyValue) (asuf : List PyValue)
          (kwargs : List (String × PyValue)) (sa : List Nat) (sk : List String),
        sa.contains apre.length = true →
        generate_cache_key fname (apre ++ v :: asuf) kwargs sa sk pfx
          = generate_cache_key fname (apre ++ w :: asuf) kwargs sa sk pfx)
    ∧ (∀ (args : List PyValue) (kpre : List (String × PyValue)) (k : String)
          (v w : PyValue) (kpost : List (String × PyValue)) (sa : List Nat)
          (sk : List String),
        sk.contains k = true →
        generate_cache_key fname args (kpre ++ (k, v) :: kpost) sa sk pfx
          = generate_cache_key fname args (kpre ++ (k, w) :: kpost) sa sk pfx)
    ∧ (∀ (apre : List PyValue) (v w : PyValue) (asuf : List PyValue)
          (kwargs : List (String × PyValue)) (sa : List Nat) (sk : List String),
        sa.contains apre.length = false → pyStr v ≠ pyStr w →
        generate_cache_key fname (apre ++ v :: asuf) kwargs sa sk pfx
          ≠ generate_cache_key fname (apre ++ w :: asuf) kwargs sa sk pfx)
    ∧ (∀ (args : List PyValue) (kpre : List (String × PyValue)) (k : String)
          (v w : PyValue) (kpost : List (String × PyValue)) (sa : List Nat)
          (sk : List String),
        sk.contains k = false → pyStr v ≠ pyStr w →
        generate_cache_key fname args (kpre ++ (k, v) :: kpost) sa sk pfx
          ≠ generate_cache_key fname args (kpre ++ (k, w) :: kpost) sa sk pfx) := by
  refine ⟨fun _ _ _ _ => rfl, ?_, ?_, ?_, ?_⟩
  · intro apre v w asuf kwargs sa sk hskip
    rw [generate_cache_key_eq, generate_cache_key_eq, argStrs_decomp, argStrs_decomp,
      hskip]
    simp
  · intro args kpre k v w kpost sa sk hskip
    rw [generate_cache_key_eq, generate_cache_key_eq,
      kwStrs_decomp_skip sk kpre k v kpost hskip, kwStrs_decomp_skip sk kpre k w kpost hskip]
  · intro apre v w asuf kwargs sa sk hskip hs
    rw [generate_cache_key_eq, generate_cache_key_eq, argStrs_decomp, argStrs_decomp,
      hskip]
    simp only [Bool.false_eq_true, if_false, List.singleton_append]
    exact key_args_ne pfx fname _ (joinColon_ne (filteredArgStrs sa 0 apre)
      (filteredArgStrs sa (apre.length + 1) asuf) hs)
  · intro args kpre k v w kpost sa sk hskip hs
    rw [generate_cache_key_eq, generate_cache_key_eq,
      kwStrs_decomp sk kpre k v kpost hskip, kwStrs_decomp sk kpre k w kpost hskip]
    refine key_kwargs_ne pfx fname _ (joinColon_ne _ _ ?_)
    intro hkv
    exact hs (str_append_cancel_left hkv)

/-- Closed instance of `c5_key_derivation`: changing a skipped positional
argument leaves the key unchanged, and changing a non-skipped positional
argument to one with a different string form changes it. -/
theorem c5_key_derivation_witness :
    generate_cache_key "f" [PyValue.vint 1, PyValue.vint 2] [] [0] [] "cache"
      = generate_cache_key "f" [PyValue.vint 9, PyValue.vint 2] [] [0] [] "cache"
    ∧ generate_cache_key "f" [PyValue.vint 1] [] [] [] "cache"
      ≠ generate_cache_key "f" [PyValue.vint 2] [] [] [] "cache" := by
  constructor
  · exact (c5_key_derivation "f" "cache").2.1 [] (PyValue.vint 1) (PyValue.vint 9)
      [PyValue.vint 2] [] [0] [] rfl
  · exact (c5_key_derivation "f" "cache").2.2.2.1 [] (PyValue.vint 1) (PyValue.vint 2)
      [] [] [] [] rfl (by decide)

end CacheLayer

